import Mathlib

/-!
Shallow embedding of the benchmarking harness in `src/all_runtimes/src/`
(`async_check.rs`, `parallel_check.rs`, `hybrid_check.rs`, `main.rs`).

Durations are modelled as exact nanosecond counts (`Nat`): Rust's
`Duration` division by a `u32` equals truncating division on total
nanoseconds, and `Duration` comparison is comparison of total
nanoseconds.  The `f64` percentage arithmetic of `main.rs` is modelled
over `ℚ` (the claims under study concern which operands feed the
formula, not floating-point rounding).  A dispatch is modelled by the
multiset of `(index, value)` write events it performs on the shared
result buffer: which writes happen is determined by the code; only
their order depends on scheduling, so order-dependent questions are
quantified over permutations of the write list.
-/

/-- One step of the loop body of `process_value`
(`src/all_runtimes/src/async_check.rs`, lines 10-12):
`result = result.wrapping_mul(31).wrapping_add(17) % 10000` on `u32`,
with the wrapping operations made explicit as reductions modulo `2 ^ 32`. -/
def pvStep (r : Nat) : Nat := ((r * 31) % 2 ^ 32 + 17) % 2 ^ 32 % 10000

/-- Fuel-indexed iteration of the loop `for _ in 0..1000` of
`process_value`: `pvIter n r` runs `n` remaining loop iterations on the
current value `r`. -/
def pvIter : Nat → Nat → Nat
  | 0, r => r
  | n + 1, r => pvIter n (pvStep r)

/-- Function `process_value` (`src/all_runtimes/src/async_check.rs`,
lines 7-14): 1000 iterations of the mixing step. -/
def process_value (value : Nat) : Nat := pvIter 1000 value

/-- One mutex-guarded buffer write `results[idx] = processed`
(the write path shared by every adapter). Out-of-range writes do not
occur in the dispatches studied here (`List.set` is then a no-op,
whereas Rust would panic). -/
def applyWrite (buf : List Nat) (w : Nat × Nat) : List Nat := buf.set w.1 w.2

/-- Applies a sequence of write events to the buffer, in the given
completion order. -/
def applyWrites (buf : List Nat) (ws : List (Nat × Nat)) : List Nat :=
  ws.foldl applyWrite buf

/-- The freshly zero-initialised result buffer `vec![0; len]`. -/
def zeroBuf (n : Nat) : List Nat := List.replicate n 0

/-- Write events of the one-task-per-item adapters (tokio, async-std,
smol, actix, rayon scope, std::thread, crossbeam scope, semaphore
pattern): `for (idx, &value) in data.iter().enumerate()` spawns a unit
that writes `(idx, process_value value)`. -/
def perItemWrites (data : List Nat) : List (Nat × Nat) :=
  data.enum.map (fun p => (p.1, process_value p.2))

/-- Write events of the chunked hybrid adapters
(`src/all_runtimes/src/hybrid_check.rs`, lines 87-115 for Tokio+Rayon
and lines 152-180 for async-std+Crossbeam): the data is split by
`data.chunks(c)` (chunk `k` is `(data.drop (k * c)).take c`), and inside
chunk `k` element `i` is written at `offset + i` where the code computes
`offset = chunk_idx * chunk_data.len()` from the length of the *current*
chunk.  Rust panics when `c = 0` (more CPUs than data); here that case
yields no writes and is not relied on. -/
def hybridChunkWrites (c : Nat) (data : List Nat) : List (Nat × Nat) :=
  (List.range ((data.length + c - 1) / c)).flatMap (fun k =>
    let chunk := (data.drop (k * c)).take c
    chunk.enum.map (fun p => (k * chunk.length + p.1, process_value p.2)))

/-- Chunked hybrid dispatch with the chunk size of the source,
`data_arc.len() / num_cpus::get().max(1)`. -/
def hybridWrites (numCpus : Nat) (data : List Nat) : List (Nat × Nat) :=
  hybridChunkWrites (data.length / max numCpus 1) data

/-- Record assembled by `main.rs` for one backend (struct
`BenchmarkResult`, `src/all_runtimes/src/main.rs`, lines 12-18); the
times are nanosecond counts. -/
structure BenchmarkResult where
  category : String
  library : String
  best_time : Nat
  avg_time : Nat
  all_times : List Nat
deriving DecidableEq

/-- Percentage-slower-than-leader formula of `main.rs`:
`((value / leader) - 1.0) * 100.0`, over exact rationals. -/
def percentSlower (value leader : ℚ) : ℚ := (value / leader - 1) * 100

/-- Comparison key of `sort_by_key(|r| r.best_time)`. -/
def leBest (a b : BenchmarkResult) : Bool := a.best_time ≤ b.best_time

/-- Comparison key of `sort_by_key(|r| r.avg_time)`. -/
def leAvg (a b : BenchmarkResult) : Bool := a.avg_time ≤ b.avg_time

/-- Stable ascending sort by best time (`main.rs` line 73); Rust's
stable `sort_by_key` and `List.mergeSort` on `≤` of the key agree. -/
def sortByBest (rs : List BenchmarkResult) : List BenchmarkResult :=
  rs.mergeSort leBest

/-- Stable ascending sort by mean time (`main.rs` line 90). -/
def sortByAvg (rs : List BenchmarkResult) : List BenchmarkResult :=
  rs.mergeSort leAvg

/-- Value `best_time_nanos` of `main.rs` line 82: the best time of the
head of the list sorted by best time (`all_results[0]`; Rust panics on
an empty list, a case no call site produces). -/
def globalBestLeaderTime (rs : List BenchmarkResult) : ℚ :=
  match sortByBest rs with
  | [] => 0
  | ob :: _ => (ob.best_time : ℚ)

/-- AVERAGE TIMES table (`main.rs` lines 89-96): rows sorted by mean
time, each row's percentage computed from its mean against
`best_time_nanos`. -/
def avgTable (rs : List BenchmarkResult) : List (BenchmarkResult × ℚ) :=
  (sortByAvg (sortByBest rs)).map
    (fun r => (r, percentSlower (r.avg_time : ℚ) (globalBestLeaderTime rs)))

/-- BEST TIMES table (`main.rs` lines 98-107): rows in by-best order,
each row's percentage computed from its best time against
`best_time_nanos`. -/
def bestTable (rs : List BenchmarkResult) : List (BenchmarkResult × ℚ) :=
  (sortByBest rs).map
    (fun r => (r, percentSlower (r.best_time : ℚ) (globalBestLeaderTime rs)))

/-- Per-category table (`main.rs` lines 117-132 and the two analogous
blocks at lines 139-154 and 161-176): filter the records of one
category, sort by best time, take the leader's best time (0.0 when the
category is empty), and compute each row's percentage against it. -/
def categoryTable (rs : List BenchmarkResult) (cat : String) :
    List (BenchmarkResult × ℚ) :=
  let libs := sortByBest (rs.filter (fun r => r.category = cat))
  let catBest : ℚ :=
    match libs with
    | [] => 0
    | b :: _ => (b.best_time : ℚ)
  libs.map (fun r => (r, percentSlower (r.best_time : ℚ) catBest))

/-- Rendering of the spec's words for §4.5, for comparison with
`avgTable`: in the global-by-mean view, `value` and `leader_value` use
the same timing field, so each entry's mean is divided by the by-mean
leader's mean. -/
def avgTableSpec (rs : List BenchmarkResult) : List (BenchmarkResult × ℚ) :=
  let sorted := sortByAvg (sortByBest rs)
  let leaderMean : ℚ :=
    match sorted with
    | [] => 0
    | l :: _ => (l.avg_time : ℚ)
  sorted.map (fun r => (r, percentSlower (r.avg_time : ℚ) leaderMean))

/-- Division of a `Duration` by a `u32` as used for the mean
(`times.iter().sum::<Duration>() / times.len() as u32`): truncating
division on total nanoseconds; Rust panics on a zero divisor, modelled
as `Except.error` carrying the std panic message. -/
def durationDiv (total n : Nat) : Except String Nat :=
  if n = 0 then
    Except.error "divide by zero error when dividing duration by scalar"
  else Except.ok (total / n)

/-- Sum of the recorded durations (`iter().sum::<Duration>()`). -/
def durationSum (times : List Nat) : Nat := times.foldl (fun a b => a + b) 0

/-- Mean computation of every trial runner
(`src/all_runtimes/src/async_check.rs` line 68,
`src/all_runtimes/src/parallel_check.rs` line 53, and the analogous
lines of `hybrid_check.rs`). -/
def benchAvg (times : List Nat) : Except String Nat :=
  durationDiv (durationSum times) times.length

/-- Initial running best of the trial runner,
`Duration::from_secs(u64::MAX)` in nanoseconds. -/
def durationSentinel : Nat := 18446744073709551615 * 1000000000

/-- Running minimum of the trial runner: every iteration replaces the
best time whenever `duration < best`. -/
def runningBest (times : List Nat) : Nat :=
  times.foldl (fun best d => if d < best then d else best) durationSentinel

/-- Series of timing samples of one backend: the trial loop
`for _ in 0..iterations` records one measured duration per iteration. -/
def trialSeries (measure : Nat → Nat) (iterations : Nat) : List Nat :=
  (List.range iterations).map measure

/-- Workload generator used by every adapter except the nalgebra one
(`(0..data_size).map(|_| rng.gen_range(0..10000))`): the entropy source
is abstracted as a stream `rng`; `gen_range(0..10000)` guarantees a
value in `[0, 10000)`, modelled as reduction modulo 10000. -/
def genWorkload (rng : Nat → Nat) (size : Nat) : List Nat :=
  (List.range size).map (fun i => rng i % 10000)

/-- Matrix side used by the nalgebra adapter
(`src/all_runtimes/src/hybrid_check.rs`, line 288):
`(data_size as f64).sqrt() as usize`, the integer square root (exact
for every size whose `f64` square root truncates to `⌊√size⌋`, in
particular all sizes used here). -/
def nalgebraMatrixSize (dataSize : Nat) : Nat := Nat.sqrt dataSize

/-- Workload of the nalgebra adapter (`hybrid_check.rs`, lines
284-296): `matrix_size * matrix_size` values drawn from `[0, 10000)`
(drawn as integers, round-tripped exactly through `f32`). -/
def nalgebraWorkload (rng : Nat → Nat) (dataSize : Nat) : List Nat :=
  genWorkload rng (nalgebraMatrixSize dataSize * nalgebraMatrixSize dataSize)

/-- Join outcome of one spawned unit: `handle.await` either returns the
unit's value or reports that the unit failed (panicked or cancelled). -/
inductive JoinOutcome where
  | ok : JoinOutcome
  | err : JoinOutcome
deriving DecidableEq

/-- Outcome of one trial: either a timing sample is recorded, or the
failure propagates and aborts the trial before a sample is recorded. -/
inductive TrialOutcome where
  | recorded : TrialOutcome
  | aborted : TrialOutcome
deriving DecidableEq

/-- Actix trial of `src/all_runtimes/src/hybrid_check.rs`, lines 51-61:
the await loop is `for handle in handles { let _ = handle.await; }` —
every join result is discarded — after which the elapsed duration is
unconditionally recorded. -/
def actixTrial (outcomes : List JoinOutcome) : TrialOutcome :=
  outcomes.foldl (fun acc _ => acc) TrialOutcome.recorded

/-- Tokio+Rayon trial of the same file, lines 117-119:
`handle.await.unwrap()` panics on the first failed unit, aborting the
trial before any sample is recorded. -/
def tokioTrial (outcomes : List JoinOutcome) : TrialOutcome :=
  outcomes.foldl
    (fun acc o =>
      match acc, o with
      | TrialOutcome.aborted, _ => TrialOutcome.aborted
      | _, JoinOutcome.err => TrialOutcome.aborted
      | _, _ => acc)
    TrialOutcome.recorded

/-- Helper: one mixing step flips the parity of the value (31 and 17
are odd, and both moduli are even). -/
theorem pvStep_mod_two (r : Nat) : pvStep r % 2 = (r + 1) % 2 := by
  show ((r * 31) % 4294967296 + 17) % 4294967296 % 10000 % 2 = (r + 1) % 2
  omega

/-- Helper: `n` mixing steps flip the parity `n` times. -/
theorem pvIter_mod_two (n : Nat) : ∀ r : Nat, pvIter n r % 2 = (r + n) % 2 := by
  induction n with
  | zero => intro r; simp [pvIter]
  | succ n ih =>
    intro r
    have h1 := pvStep_mod_two r
    have h2 := ih (pvStep r)
    show pvIter n (pvStep r) % 2 = (r + (n + 1)) % 2
    omega

/-- Helper: a slot no write event targets keeps its initial content,
whatever the completion order. -/
theorem applyWrites_getElem?_of_ne (ws : List (Nat × Nat)) (j : Nat)
    (h : ∀ w ∈ ws, w.1 ≠ j) (buf : List Nat) :
    (applyWrites buf ws)[j]? = buf[j]? := by
  induction ws generalizing buf with
  | nil => rfl
  | cons w ws ih =>
    have hw : w.1 ≠ j := h w (List.mem_cons_self _ _)
    have hrest : ∀ x ∈ ws, x.1 ≠ j := fun x hx => h x (List.mem_cons_of_mem _ hx)
    show (applyWrites (applyWrite buf w) ws)[j]? = buf[j]?
    rw [ih hrest]
    simp [applyWrite, List.getElem?_set_ne hw]

/-- Claim C1: for workload size 5 on 2 CPUs, the chunked hybrid dispatch
(Tokio+Rayon / async-std+Crossbeam adapters) leaves slot 4 at its zero
initialisation in every completion order, while the kernel value of the
unit assigned to slot 4 is nonzero — the dispatch returns successfully
yet slot 4 does not hold `process_value(Workload[4])`, because the last
chunk's offset is computed from the last chunk's own (shorter) length. -/
theorem hybrid_chunk_dispatch_misses_slot (ws : List (Nat × Nat))
    (h : ws.Perm (hybridWrites 2 [1, 2, 3, 4, 5])) :
    (applyWrites (zeroBuf 5) ws)[4]? = some 0 ∧ process_value 5 ≠ 0 := by
  constructor
  · have hall : ∀ w ∈ hybridWrites 2 [1, 2, 3, 4, 5], w.1 ≠ 4 := by decide
    have hws : ∀ w ∈ ws, w.1 ≠ 4 := fun w hw => hall w (h.mem_iff.mp hw)
    rw [applyWrites_getElem?_of_ne ws 4 hws]
    rfl
  · intro h0
    have hpar := pvIter_mod_two 1000 5
    rw [show pvIter 1000 5 = process_value 5 from rfl, h0] at hpar
    omega

/-- Witness for C1 at the identity completion order. -/
theorem hybrid_chunk_dispatch_misses_slot_witness :
    (applyWrites (zeroBuf 5) (hybridWrites 2 [1, 2, 3, 4, 5]))[4]? = some 0 ∧
      process_value 5 ≠ 0 :=
  hybrid_chunk_dispatch_misses_slot _ (List.Perm.refl _)

/-- Claim C2: in the same dispatch (size 5, 2 CPUs) the chunked hybrid
adapters write index 2 twice and index 4 not at all, violating the
exactly-once-per-index contract; by contrast the one-task-per-item
adapters emit exactly the indices 0..4 once each. -/
theorem hybrid_chunk_write_count_violation :
    ((hybridWrites 2 [1, 2, 3, 4, 5]).map Prod.fst).count 2 = 2 ∧
      ((hybridWrites 2 [1, 2, 3, 4, 5]).map Prod.fst).count 4 = 0 ∧
      (perItemWrites [1, 2, 3, 4, 5]).map Prod.fst = [0, 1, 2, 3, 4] := by
  decide

/-- Claim C3: with an iteration count of 0 the recorded series is empty
and the mean computation divides the zero `Duration` by `0_u32`, which
panics in Rust instead of reporting the backend as having no samples. -/
theorem zero_iterations_divide_by_zero (measure : Nat → Nat) :
    benchAvg (trialSeries measure 0) =
      Except.error "divide by zero error when dividing duration by scalar" := rfl

/-- Claim C10: every `u32` input (indeed every natural number under the
wrapping model) is mapped by `process_value` to a value strictly below
10000, since each of the 1000 loop iterations ends with a reduction
modulo 10000. -/
theorem process_value_lt_10000 (x : Nat) : process_value x < 10000 := by
  have key : ∀ n : Nat, ∀ r : Nat, pvIter (n + 1) r < 10000 := by
    intro n
    induction n with
    | zero => intro r; exact Nat.mod_lt _ (by decide)
    | succ n ih => intro r; exact ih (pvStep r)
  exact key 999 x

/-- Helper: transitivity of the by-best comparison. -/
theorem leBest_trans :
    ∀ a b c : BenchmarkResult, leBest a b → leBest b c → leBest a c := by
  intro a b c hab hbc
  simp only [leBest, decide_eq_true_eq] at *
  omega

/-- Helper: totality of the by-best comparison. -/
theorem leBest_total : ∀ a b : BenchmarkResult, leBest a b || leBest b a := by
  intro a b
  simp only [leBest, Bool.or_eq_true, decide_eq_true_eq]
  omega

/-- Helper: the head of the by-best sort is a member of the input
attaining the minimum best time. -/
theorem sortByBest_head_min (rs : List BenchmarkResult)
    (ob : BenchmarkResult) (rest : List BenchmarkResult)
    (h : sortByBest rs = ob :: rest) :
    ob ∈ rs ∧ ∀ r ∈ rs, ob.best_time ≤ r.best_time := by
  have hperm : (sortByBest rs).Perm rs := List.mergeSort_perm rs leBest
  have hmem : ob ∈ rs := hperm.mem_iff.mp (by rw [h]; exact List.mem_cons_self _ _)
  refine ⟨hmem, fun r hr => ?_⟩
  have hr' : r ∈ sortByBest rs := hperm.mem_iff.mpr hr
  rw [h] at hr'
  rcases List.mem_cons.mp hr' with hre | hrt
  · subst hre; exact Nat.le_refl _
  · have hsorted : (sortByBest rs).Pairwise (fun a b => leBest a b = true) :=
      List.sorted_mergeSort leBest_trans leBest_total rs
    rw [h] at hsorted
    have := (List.pairwise_cons.mp hsorted).1 r hrt
    simpa [leBest] using this

/-- Claim C7: the BEST TIMES view lists records in non-decreasing order
of best time, and the leader's computed percentage-slower-than-leader
is exactly 0. -/
theorem global_by_best_sorted_leader_zero (rs : List BenchmarkResult)
    (ob : BenchmarkResult) (rest : List BenchmarkResult)
    (h : sortByBest rs = ob :: rest) (hpos : 0 < ob.best_time) :
    ((bestTable rs).map Prod.fst).Pairwise
        (fun a b => a.best_time ≤ b.best_time) ∧
      (bestTable rs).head? = some (ob, 0) := by
  have hsorted : (sortByBest rs).Pairwise (fun a b => leBest a b = true) :=
    List.sorted_mergeSort leBest_trans leBest_total rs
  have hb : (ob.best_time : ℚ) ≠ 0 := by
    exact_mod_cast Nat.pos_iff_ne_zero.mp hpos
  constructor
  · have hid : (Prod.fst ∘ fun r : BenchmarkResult =>
        (r, percentSlower (r.best_time : ℚ) (globalBestLeaderTime rs))) = id := rfl
    have hmap : (bestTable rs).map Prod.fst = sortByBest rs := by
      simp [bestTable, List.map_map, hid]
    rw [hmap]
    exact hsorted.imp (fun hab => by simpa [leBest] using hab)
  · simp [bestTable, globalBestLeaderTime, h, percentSlower, div_self hb]

unseal List.merge List.mergeSort in
/-- Witness for C7 on two concrete records. -/
theorem global_by_best_sorted_leader_zero_witness :
    ((bestTable [⟨"Parallel", "Rayon", 5, 7, [7, 5]⟩,
        ⟨"Parallel", "Crossbeam", 6, 6, [6, 6]⟩]).map Prod.fst).Pairwise
        (fun a b => a.best_time ≤ b.best_time) ∧
      (bestTable [⟨"Parallel", "Rayon", 5, 7, [7, 5]⟩,
        ⟨"Parallel", "Crossbeam", 6, 6, [6, 6]⟩]).head? =
        some (⟨"Parallel", "Rayon", 5, 7, [7, 5]⟩, 0) :=
  global_by_best_sorted_leader_zero _ _ [⟨"Parallel", "Crossbeam", 6, 6, [6, 6]⟩]
    (by decide) (by decide)

unseal List.merge List.mergeSort in
/-- Claim C4 is false on the code: with records A (best 100, mean 200)
and B (best 150, mean 160), the AVERAGE TIMES table computes 60% for
the by-mean leader B — dividing B's mean by A's global best time —
whereas the claim's same-field formula (mean against the by-mean
leader's mean) gives 0% for the leader and 25% for A. -/
theorem avg_table_mixed_fields_counterexample :
    ((avgTable [⟨"Asynchronous", "A", 100, 200, [200]⟩,
        ⟨"Asynchronous", "B", 150, 160, [160]⟩]).map Prod.snd = [60, 100]) ∧
      ((avgTableSpec [⟨"Asynchronous", "A", 100, 200, [200]⟩,
        ⟨"Asynchronous", "B", 150, 160, [160]⟩]).map Prod.snd = [0, 25]) ∧
      ([60, 100] ≠ ([0, 25] : List ℚ)) := by
  have hb : sortByBest [⟨"Asynchronous", "A", 100, 200, [200]⟩,
      ⟨"Asynchronous", "B", 150, 160, [160]⟩] =
      [⟨"Asynchronous", "A", 100, 200, [200]⟩,
        ⟨"Asynchronous", "B", 150, 160, [160]⟩] := by decide
  have ha : sortByAvg [⟨"Asynchronous", "A", 100, 200, [200]⟩,
      ⟨"Asynchronous", "B", 150, 160, [160]⟩] =
      [⟨"Asynchronous", "B", 150, 160, [160]⟩,
        ⟨"Asynchronous", "A", 100, 200, [200]⟩] := by decide
  refine ⟨?_, ?_, by norm_num⟩
  · simp only [avgTable, hb, ha, globalBestLeaderTime, percentSlower]
    norm_num
  · simp only [avgTableSpec, hb, ha, percentSlower]
    norm_num

/-- Claim C4 (amended): both global tables compute
`(value / leader_value - 1) * 100` with `leader_value` equal to the
global minimum best time (attained by a record of the set): the BEST
TIMES view pairs each record's best time with it, and the AVERAGE TIMES
view pairs each record's mean with that same global best time rather
than with the by-mean leader's mean. -/
theorem aggregator_percent_leader_fields (rs : List BenchmarkResult)
    (ob : BenchmarkResult) (rest : List BenchmarkResult)
    (h : sortByBest rs = ob :: rest) :
    (ob ∈ rs ∧ ∀ r ∈ rs, ob.best_time ≤ r.best_time) ∧
      (∀ e ∈ avgTable rs,
        e.2 = percentSlower (e.1.avg_time : ℚ) (ob.best_time : ℚ)) ∧
      (∀ e ∈ bestTable rs,
        e.2 = percentSlower (e.1.best_time : ℚ) (ob.best_time : ℚ)) := by
  have hlead : globalBestLeaderTime rs = (ob.best_time : ℚ) := by
    simp [globalBestLeaderTime, h]
  refine ⟨sortByBest_head_min rs ob rest h, ?_, ?_⟩
  · intro e he
    simp only [avgTable, List.mem_map] at he
    obtain ⟨r, -, rfl⟩ := he
    simp [hlead]
  · intro e he
    simp only [bestTable, List.mem_map] at he
    obtain ⟨r, -, rfl⟩ := he
    simp [hlead]

unseal List.merge List.mergeSort in
/-- Witness for the amended C4 on two concrete records. -/
theorem aggregator_percent_leader_fields_witness :
    ((⟨"Asynchronous", "A", 100, 200, [200]⟩ : BenchmarkResult) ∈
        [(⟨"Asynchronous", "A", 100, 200, [200]⟩ : BenchmarkResult),
          ⟨"Asynchronous", "B", 150, 160, [160]⟩] ∧
      ∀ r ∈ [(⟨"Asynchronous", "A", 100, 200, [200]⟩ : BenchmarkResult),
          ⟨"Asynchronous", "B", 150, 160, [160]⟩],
        (⟨"Asynchronous", "A", 100, 200, [200]⟩ : BenchmarkResult).best_time ≤
          r.best_time) ∧
      (∀ e ∈ avgTable [(⟨"Asynchronous", "A", 100, 200, [200]⟩ : BenchmarkResult),
          ⟨"Asynchronous", "B", 150, 160, [160]⟩],
        e.2 = percentSlower (e.1.avg_time : ℚ)
          ((⟨"Asynchronous", "A", 100, 200, [200]⟩ : BenchmarkResult).best_time : ℚ)) ∧
      (∀ e ∈ bestTable [(⟨"Asynchronous", "A", 100, 200, [200]⟩ : BenchmarkResult),
          ⟨"Asynchronous", "B", 150, 160, [160]⟩],
        e.2 = percentSlower (e.1.best_time : ℚ)
          ((⟨"Asynchronous", "A", 100, 200, [200]⟩ : BenchmarkResult).best_time : ℚ)) :=
  aggregator_percent_leader_fields _ _ [⟨"Asynchronous", "B", 150, 160, [160]⟩]
    (by decide)

/-- Claim C8: every row of a per-category table computes its percentage
against the minimum best time among the records sharing its category
label (the minimum is attained by such a record), never against the
global leader or a record of another category. -/
theorem category_percent_uses_category_min (rs : List BenchmarkResult)
    (cat : String) (e : BenchmarkResult × ℚ)
    (he : e ∈ categoryTable rs cat) :
    ∃ m : Nat, (∃ r ∈ rs, r.category = cat ∧ r.best_time = m) ∧
      (∀ r ∈ rs, r.category = cat → m ≤ r.best_time) ∧
      e.2 = percentSlower (e.1.best_time : ℚ) (m : ℚ) := by
  rcases heq : sortByBest (rs.filter (fun r => r.category = cat)) with _ | ⟨b, brest⟩
  · simp [categoryTable, heq] at he
  · have hmin := sortByBest_head_min _ b brest heq
    refine ⟨b.best_time, ?_, ?_, ?_⟩
    · have hbmem := hmin.1
      rw [List.mem_filter] at hbmem
      exact ⟨b, hbmem.1, by simpa using hbmem.2, rfl⟩
    · intro r hr hcat
      exact hmin.2 r (List.mem_filter.mpr ⟨hr, by simpa using hcat⟩)
    · have htbl : categoryTable rs cat =
          (b :: brest).map
            (fun r => (r, percentSlower (r.best_time : ℚ) (b.best_time : ℚ))) := by
        simp [categoryTable, heq]
      rw [htbl] at he
      simp only [List.mem_map] at he
      obtain ⟨r, -, rfl⟩ := he
      rfl

/-- Witness for C8 on a one-record category. -/
theorem category_percent_uses_category_min_witness :
    ∃ m : Nat,
      (∃ r ∈ [(⟨"Parallel", "Rayon", 5, 7, [7, 5]⟩ : BenchmarkResult)],
        r.category = "Parallel" ∧ r.best_time = m) ∧
      (∀ r ∈ [(⟨"Parallel", "Rayon", 5, 7, [7, 5]⟩ : BenchmarkResult)],
        r.category = "Parallel" → m ≤ r.best_time) ∧
      ((⟨"Parallel", "Rayon", 5, 7, [7, 5]⟩, (0 : ℚ)) :
          BenchmarkResult × ℚ).2 =
        percentSlower
          ((((⟨"Parallel", "Rayon", 5, 7, [7, 5]⟩, (0 : ℚ)) :
              BenchmarkResult × ℚ).1.best_time : ℚ)) (m : ℚ) :=
  category_percent_uses_category_min _ _ _ (by
    have htbl : categoryTable [(⟨"Parallel", "Rayon", 5, 7, [7, 5]⟩ : BenchmarkResult)]
        "Parallel" = [(⟨"Parallel", "Rayon", 5, 7, [7, 5]⟩, (0 : ℚ))] := by
      norm_num [categoryTable, sortByBest, percentSlower]
    rw [htbl]
    exact List.mem_singleton.mpr rfl)

/-- Helper: folding the running minimum never goes above its start. -/
theorem foldMin_le_init (l : List Nat) :
    ∀ init, l.foldl (fun best d => if d < best then d else best) init ≤ init := by
  induction l with
  | nil => intro init; exact Nat.le_refl _
  | cons d rest ih =>
    intro init
    have h1 := ih (if d < init then d else init)
    have h2 : (if d < init then d else init) ≤ init := by split <;> omega
    show rest.foldl (fun best d => if d < best then d else best)
        (if d < init then d else init) ≤ init
    omega

/-- Helper: the running minimum is at most every recorded duration. -/
theorem foldMin_le_mem (l : List Nat) :
    ∀ init, ∀ x ∈ l,
      l.foldl (fun best d => if d < best then d else best) init ≤ x := by
  induction l with
  | nil => intro init x hx; cases hx
  | cons d rest ih =>
    intro init x hx
    rcases List.mem_cons.mp hx with hxd | hxr
    · subst hxd
      have h1 := foldMin_le_init rest (if x < init then x else init)
      have h2 : (if x < init then x else init) ≤ x := by split <;> omega
      show rest.foldl (fun best d => if d < best then d else best)
          (if x < init then x else init) ≤ x
      omega
    · exact ih (if d < init then d else init) x hxr

/-- Helper: a lower bound on every element bounds the accumulated sum
from below by `bound * length`. -/
theorem mul_length_le_foldl_add (m : Nat) :
    ∀ l : List Nat, (∀ x ∈ l, m ≤ x) →
      ∀ acc, m * l.length + acc ≤ l.foldl (fun a b => a + b) acc := by
  intro l
  induction l with
  | nil => intro _ acc; simp
  | cons d rest ih =>
    intro h acc
    have hd : m ≤ d := h d (List.mem_cons_self _ _)
    have hrest : ∀ x ∈ rest, m ≤ x := fun x hx => h x (List.mem_cons_of_mem _ hx)
    have hih := ih hrest (acc + d)
    have hmul : m * (rest.length + 1) = m * rest.length + m := by ring
    show m * (rest.length + 1) + acc ≤ rest.foldl (fun a b => a + b) (acc + d)
    omega

/-- Claim C9: for a nonempty series the trial runner's best time (the
running minimum) is at most its mean, the Duration sum divided
(truncating, on nanoseconds) by the number of samples. -/
theorem best_le_avg (times : List Nat) (h : times ≠ []) :
    benchAvg times = Except.ok (durationSum times / times.length) ∧
      runningBest times ≤ durationSum times / times.length := by
  have hlen : times.length ≠ 0 := fun hc => h (List.length_eq_zero.mp hc)
  constructor
  · simp [benchAvg, durationDiv, hlen]
  · rw [Nat.le_div_iff_mul_le (Nat.pos_of_ne_zero hlen)]
    have hmem : ∀ x ∈ times, runningBest times ≤ x :=
      fun x hx => foldMin_le_mem times durationSentinel x hx
    have hsum := mul_length_le_foldl_add (runningBest times) times hmem 0
    simpa [durationSum] using hsum

/-- Witness for C9 on the series 3 ns, 5 ns. -/
theorem best_le_avg_witness :
    benchAvg [3, 5] = Except.ok (durationSum [3, 5] / ([3, 5] : List Nat).length) ∧
      runningBest [3, 5] ≤ durationSum [3, 5] / ([3, 5] : List Nat).length :=
  best_le_avg [3, 5] (by decide)

/-- Claim C5 is false on the code: at configured data size 5 the
nalgebra adapter builds a workload of length `⌊√5⌋ * ⌊√5⌋ = 4 ≠ 5`. -/
theorem nalgebra_workload_length_counterexample :
    (nalgebraWorkload (fun _ => 0) 5).length = 4 ∧ (4 : Nat) ≠ 5 := by
  have h5 : Nat.sqrt 5 = 2 := (Nat.eq_sqrt.mpr (by omega)).symm
  refine ⟨?_, by decide⟩
  simp [nalgebraWorkload, genWorkload, nalgebraMatrixSize, h5]

/-- Claim C5 (amended): every adapter except the nalgebra one generates
a workload of length exactly the configured size with values in
`[0, 10000)`; the nalgebra adapter substitutes a workload of length
`⌊√size⌋ * ⌊√size⌋` — equal to the configured size only for perfect
squares — with values in the same range. -/
theorem workload_length_and_range (rng : Nat → Nat) (size : Nat) :
    (genWorkload rng size).length = size ∧
      (∀ v ∈ genWorkload rng size, v < 10000) ∧
      (nalgebraWorkload rng size).length =
        nalgebraMatrixSize size * nalgebraMatrixSize size ∧
      ∀ v ∈ nalgebraWorkload rng size, v < 10000 := by
  have hrange : ∀ s, ∀ v ∈ genWorkload rng s, v < 10000 := by
    intro s v hv
    simp only [genWorkload, List.mem_map, List.mem_range] at hv
    obtain ⟨i, -, rfl⟩ := hv
    exact Nat.mod_lt _ (by decide)
  exact ⟨by simp [genWorkload], hrange size,
    by simp [nalgebraWorkload, genWorkload], hrange _⟩

/-- Witness for the amended C5 at size 3. -/
theorem workload_length_and_range_witness :
    (genWorkload (fun _ => 0) 3).length = 3 ∧
      (∀ v ∈ genWorkload (fun _ => 0) 3, v < 10000) ∧
      (nalgebraWorkload (fun _ => 0) 3).length =
        nalgebraMatrixSize 3 * nalgebraMatrixSize 3 ∧
      ∀ v ∈ nalgebraWorkload (fun _ => 0) 3, v < 10000 :=
  workload_length_and_range (fun _ => 0) 3

/-- Claim C6: with a single failed unit the Actix adapter's trial still
records a timing sample — the `let _ = handle.await;` loop silently
absorbs the failure — whereas the Tokio+Rayon trial in the same file
propagates it (`handle.await.unwrap()`) and records no sample. -/
theorem actix_absorbs_unit_failure :
    actixTrial [JoinOutcome.err] = TrialOutcome.recorded ∧
      tokioTrial [JoinOutcome.err] = TrialOutcome.aborted := by
  decide
